import Mathlib

/-!
# Tristate key logic-locking gate (src/main.cpp)

A shallow embedding of the class TristateGate of src/main.cpp and the
properties of its state-selection function.

Modelling conventions:

* a value of type std::bitset<BITS> is represented by the natural number
  it converts to (to_ulong), so the well-formed values are exactly the
  numbers below 2 ^ BITS; bit i of the bitset is Nat.testBit at i;
* a member function that mutates the object takes the object state and
  returns the new one; tristateLogic, which also returns a value, returns
  the pair (returned value, new object state).
-/

/-- Number of bits of the multi-bit values: the macro BITS of main.cpp, line 12. -/
def BITS : Nat := 8

/-- The enum OutputState of main.cpp, lines 16-21, enumerators in source order. -/
inductive OutputState where
  | BUFFER
  | INVERTER
  | HI_Z
  | UNK
  deriving DecidableEq, Repr

/-- The number obtained from the low n bits of x by flipping each of them:
bit i of the result, for i < n, is set exactly when bit i of x is clear. -/
def flipBits (x : Nat) : Nat → Nat
  | 0 => 0
  | n + 1 => flipBits x n + (if x.testBit n then 0 else 2 ^ n)

/-- The operator ~ of std::bitset<BITS>: a bitset with all BITS bits flipped. -/
def bitsetFlip (x : Nat) : Nat :=
  flipBits x BITS

/-- The member reset() of std::bitset<BITS>: every bit is set to 0. -/
def bitsetReset (_v : Nat) : Nat :=
  0

/-- The data members of class TristateGate, main.cpp lines 88-91.
The field outputValue holds a std::bitset<BITS> as a number. -/
structure TristateGate where
  bufferKey : Bool
  inverterKey : Bool
  outputState : OutputState
  outputValue : Nat
  deriving DecidableEq, Repr

namespace TristateGate

/-- The constructor TristateGate::TristateGate, main.cpp lines 32-33:
both keys default to true, the state starts as UNK and the value as 0. -/
def new (bufferKey : Bool := true) (inverterKey : Bool := true) : TristateGate :=
  { bufferKey := bufferKey
    inverterKey := inverterKey
    outputState := OutputState.UNK
    outputValue := 0 }

/-- The setter TristateGate::setKeys, main.cpp lines 35-38. -/
def setKeys (g : TristateGate) (bufferKey inverterKey : Bool) : TristateGate :=
  { g with bufferKey := bufferKey, inverterKey := inverterKey }

/-- The member TristateGate::tristateLogic, main.cpp lines 40-58: the
if / else-if chain updates the object, then the stored outputState is
returned. -/
def tristateLogic (g : TristateGate) (input : Nat) : OutputState × TristateGate :=
  let g' : TristateGate :=
    if g.bufferKey && g.inverterKey then
      { g with outputState := OutputState.UNK, outputValue := bitsetReset g.outputValue }
    else if g.bufferKey then
      { g with outputState := OutputState.BUFFER, outputValue := input }
    else if g.inverterKey then
      { g with outputState := OutputState.INVERTER, outputValue := bitsetFlip input }
    else
      { g with outputState := OutputState.HI_Z }
  (g'.outputState, g')

/-- A gate state is well formed when its stored value fits in BITS bits. -/
def WellFormed (g : TristateGate) : Prop :=
  g.outputValue < 2 ^ BITS

end TristateGate

/-! ## Text output and the test driver -/

/-- The operator << of std::ostream on a std::bitset<BITS>: the BITS
characters 0 or 1 of the value, most significant bit first. -/
def bitsetToString (x : Nat) : String :=
  String.mk ((List.range BITS).reverse.map (fun i => if x.testBit i then '1' else '0'))

/-- The operator << of std::ostream on a bool (no boolalpha): 1 or 0. -/
def boolToString (b : Bool) : String :=
  if b then "1" else "0"

/-- The constructor of std::bitset<BITS> from a number: the low BITS bits. -/
def bitsetOfNat (v : Nat) : Nat :=
  v % 2 ^ BITS

namespace TristateGate

/-- The member TristateGate::printState, main.cpp lines 61-85: evaluates the
gate, then writes the input, the keys, the state name and the stored value.
The result is the text written to std::cout and the new object state. -/
def printState (g : TristateGate) (input : Nat) : String × TristateGate :=
  let r := g.tristateLogic input
  let currentState := r.1
  let g' := r.2
  let head :=
    "Input: " ++ bitsetToString input
      ++ "\nBuffer Key: " ++ boolToString g'.bufferKey
      ++ "\tInverter Key: " ++ boolToString g'.inverterKey
      ++ "\nActual State: "
  let tail :=
    match currentState with
    | OutputState.BUFFER =>
      "BUFFER\nActual Output: " ++ bitsetToString g'.outputValue ++ "\n"
    | OutputState.INVERTER =>
      "INVERTER\nActual Output: " ++ bitsetToString g'.outputValue ++ "\n"
    | OutputState.HI_Z =>
      "HI-Z\nActual Output (Retained): " ++ bitsetToString g'.outputValue ++ "\n"
    | OutputState.UNK =>
      "UNK\tActual Output: " ++ bitsetToString g'.outputValue
        ++ " (All bits set to 0 for undefined)\n"
  (head ++ tail, g')

end TristateGate

/-- The macro LOGIC_LOCKING_COMBINATIONS of main.cpp, line 13. -/
def LOGIC_LOCKING_COMBINATIONS : Nat := 4

/-- The macro RANDOM_TEST_CASES of main.cpp, line 14. -/
def RANDOM_TEST_CASES : Nat := 10

/-- The key decoding of main.cpp, lines 116-117: bufferKey is bit 1 of j and
inverterKey is bit 0 of j, each converted from int to bool (non-zero is true). -/
def decodeKeys (j : Nat) : Bool × Bool :=
  (((j &&& 0x2) >>> 1) != 0, (j &&& 0x1) != 0)

/-- A record of one printState call made by the driver: the keys set before
the call, the input, the state the evaluation resolved to, the stored
outputValue after the call and the text written. -/
structure Evaluation where
  bufferKey : Bool
  inverterKey : Bool
  input : Nat
  state : OutputState
  outputValue : Nat
  report : String
  deriving DecidableEq, Repr

/-- The state of the test driver: the gate tsg, the text written to std::cout
so far, and the printState calls made so far, oldest first. -/
structure Driver where
  tsg : TristateGate
  out : String
  calls : List Evaluation
  deriving DecidableEq, Repr

/-- The body of the inner loop of main, main.cpp lines 115-122, for one j. -/
def keyLoopBody (input : Nat) (s : Driver) (j : Nat) : Driver :=
  let bufferKey := (decodeKeys j).1
  let inverterKey := (decodeKeys j).2
  let g := s.tsg.setKeys bufferKey inverterKey
  let r := g.printState input
  { tsg := r.2
    out := s.out ++ r.1 ++ "\n"
    calls := s.calls ++
      [{ bufferKey := bufferKey, inverterKey := inverterKey, input := input,
         state := r.2.outputState, outputValue := r.2.outputValue, report := r.1 }] }

/-- The inner loop of main, main.cpp lines 114-123: j runs from 0 up to
LOGIC_LOCKING_COMBINATIONS - 1. -/
def keyLoop (input : Nat) (s : Driver) : Driver :=
  (List.range LOGIC_LOCKING_COMBINATIONS).foldl (keyLoopBody input) s

/-- The outer loop of main, main.cpp lines 108-125, run on the inputs drawn
in order; i is the loop counter at the first of them. -/
def testLoop : List Nat → Nat → Driver → Driver
  | [], _, s => s
  | input :: rest, i, s =>
    let s' : Driver :=
      { s with out := s.out ++ "Random Input " ++ toString (i + 1) ++ ": "
                  ++ bitsetToString input ++ "\n\n" }
    testLoop rest (i + 1) (keyLoop input s')

/-- The function main of main.cpp, lines 95-127 (the plain name is kept by
Lean for a program entry point). The random engine is replaced by rand, where
rand i is the number drawn by dist(gen) in iteration i; the result is the
return value and the final driver state. -/
def Driver.main (rand : Nat → Nat) : Int × Driver :=
  let tsg : TristateGate := TristateGate.new
  let inputs := (List.range RANDOM_TEST_CASES).map (fun i => bitsetOfNat (rand i))
  (0, testLoop inputs 0 { tsg := tsg, out := "", calls := [] })

/-- The consecutive evaluations of a gate on the given inputs, without any
setKeys in between: the states returned, in order. -/
def evaluations : TristateGate → List Nat → List OutputState
  | _, [] => []
  | g, x :: xs => (g.tristateLogic x).1 :: evaluations (g.tristateLogic x).2 xs

/-- The decision table of the specification (section 4.1) as one exhaustive
four-row match on the key pair: the resulting state and output value, given
the previous output value and the input. -/
def evaluateTable (bufferEnable inverterEnable : Bool) (previous input : Nat) :
    OutputState × Nat :=
  match bufferEnable, inverterEnable with
  | true, true => (OutputState.UNK, 0)
  | true, false => (OutputState.BUFFER, input)
  | false, true => (OutputState.INVERTER, input ^^^ (2 ^ BITS - 1))
  | false, false => (OutputState.HI_Z, previous)

/-- The text needle occurs in the text: some characters, then needle, then
some characters. -/
def occursIn (needle text : String) : Prop :=
  needle.data <:+: text.data

/-! ## Facts about the bitset operations -/

theorem bitsetFlip_eq_sub (x : Nat) (hx : x < 2 ^ BITS) :
    bitsetFlip x = 2 ^ BITS - 1 - x := by
  have h : x < 256 := hx
  interval_cases x <;> rfl

theorem flipBits_lt (x n : Nat) : flipBits x n < 2 ^ n := by
  induction n with
  | zero => simp [flipBits]
  | succ n ih =>
    have h2 : 2 ^ (n + 1) = 2 ^ n + 2 ^ n := by rw [Nat.pow_succ]; omega
    simp only [flipBits]
    split <;> omega

theorem flipBits_testBit (x n i : Nat) (hi : i < n) :
    (flipBits x n).testBit i = !x.testBit i := by
  induction n with
  | zero => omega
  | succ n ih =>
    have hlt : (flipBits x n).testBit n = false :=
      Nat.testBit_lt_two_pow (flipBits_lt x n)
    rcases Nat.lt_succ_iff_lt_or_eq.mp hi with h | h
    · cases hb : x.testBit n
      · simp only [flipBits, hb, Bool.false_eq_true, if_false]
        rw [Nat.add_comm, Nat.testBit_two_pow_add_gt h, ih h]
      · simp only [flipBits, hb, if_true, Nat.add_zero]
        exact ih h
    · subst h
      cases hb : x.testBit i
      · simp only [flipBits, hb, Bool.false_eq_true, if_false]
        rw [Nat.add_comm, Nat.testBit_two_pow_add_eq, hlt]
      · simp only [flipBits, hb, if_true, Nat.add_zero]
        rw [hlt]
        rfl

theorem bitsetFlip_lt (x : Nat) : bitsetFlip x < 2 ^ BITS :=
  flipBits_lt x BITS

theorem bitsetFlip_testBit (x i : Nat) (hi : i < BITS) :
    (bitsetFlip x).testBit i = !x.testBit i :=
  flipBits_testBit x BITS i hi

theorem bitsetFlip_testBit_high (x i : Nat) (hi : BITS ≤ i) :
    (bitsetFlip x).testBit i = false :=
  Nat.testBit_lt_two_pow
    (Nat.lt_of_lt_of_le (bitsetFlip_lt x) (Nat.pow_le_pow_right (by decide) hi))

theorem bitsetFlip_eq_xor (x : Nat) (hx : x < 2 ^ BITS) :
    bitsetFlip x = x ^^^ 0xFF := by
  have h : x < 256 := hx
  interval_cases x <;> rfl

/-! ## The gate's operations -/

/-- Well-formedness is kept by evaluation on a well-formed input. -/
theorem tristateLogic_wellFormed (g : TristateGate) (x : Nat)
    (hg : g.WellFormed) (hx : x < 2 ^ BITS) :
    (g.tristateLogic x).2.WellFormed := by
  unfold TristateGate.WellFormed at *
  unfold TristateGate.tristateLogic
  cases hb : g.bufferKey <;> cases hi : g.inverterKey <;>
    simp [bitsetReset, bitsetFlip_lt, hg, hx]

/-- C1: for every input x and every prior gate state g, after
setKeys(true,false) the call tristateLogic(x) returns BUFFER and the stored
outputValue is x. -/
theorem c1_buffer_returns_input (g : TristateGate) (x : Nat) :
    ((g.setKeys true false).tristateLogic x).1 = OutputState.BUFFER ∧
    ((g.setKeys true false).tristateLogic x).2.outputValue = x := by
  simp [TristateGate.tristateLogic, TristateGate.setKeys]

/-- C2: for every 8-bit input x and every prior gate state g, after
setKeys(false,true) the call tristateLogic(x) returns INVERTER and the stored
outputValue is the complement of x over exactly BITS = 8 bits: bit i of the
output is the negation of bit i of x for every i < 8, the output is 255 - x,
which is x XOR 0xFF, and no bit above bit 7 is set. -/
theorem c2_inverter_complements_input (g : TristateGate) (x : Nat) (hx : x < 2 ^ BITS) :
    ((g.setKeys false true).tristateLogic x).1 = OutputState.INVERTER ∧
    (∀ i, i < 8 →
      ((g.setKeys false true).tristateLogic x).2.outputValue.testBit i = !x.testBit i) ∧
    ((g.setKeys false true).tristateLogic x).2.outputValue = 255 - x ∧
    ((g.setKeys false true).tristateLogic x).2.outputValue = x ^^^ 0xFF ∧
    (∀ i, 8 ≤ i →
      ((g.setKeys false true).tristateLogic x).2.outputValue.testBit i = false) := by
  have hv : ((g.setKeys false true).tristateLogic x).2.outputValue = bitsetFlip x := by
    simp [TristateGate.tristateLogic, TristateGate.setKeys]
  refine ⟨by simp [TristateGate.tristateLogic, TristateGate.setKeys], ?_, ?_, ?_, ?_⟩
  · intro i hi
    rw [hv]
    exact bitsetFlip_testBit x i hi
  · rw [hv]
    exact bitsetFlip_eq_sub x hx
  · rw [hv]
    exact bitsetFlip_eq_xor x hx
  · intro i hi
    rw [hv]
    exact bitsetFlip_testBit_high x i hi

/-- Witness of C2 at the input 0b00101101 on a gate holding BUFFER and 45. -/
theorem c2_inverter_complements_input_witness :
    (0b00101101 : Nat) < 2 ^ BITS ∧
    (((TristateGate.mk true false OutputState.BUFFER 45).setKeys false true).tristateLogic
      0b00101101).2.outputValue = 255 - 0b00101101 :=
  ⟨by decide,
   (c2_inverter_complements_input (TristateGate.mk true false OutputState.BUFFER 45)
      0b00101101 (by decide)).2.2.1⟩

/-- C3: for every input x and every prior gate state g, after
setKeys(true,true) the call tristateLogic(x) returns UNK and the stored
outputValue is all-zero bits. -/
theorem c3_both_keys_unknown_zero (g : TristateGate) (x : Nat) :
    ((g.setKeys true true).tristateLogic x).1 = OutputState.UNK ∧
    ((g.setKeys true true).tristateLogic x).2.outputValue = 0 ∧
    (∀ i, ((g.setKeys true true).tristateLogic x).2.outputValue.testBit i = false) := by
  simp [TristateGate.tristateLogic, TristateGate.setKeys, bitsetReset]

/-- C4: for every input x and every prior gate state g with stored
outputValue v, after setKeys(false,false) the call tristateLogic(x) returns
HI_Z and the stored outputValue is still v, whatever x is; when g is the state
left by a preceding evaluation, v is the value that evaluation produced; and
when this is the first evaluation on a freshly constructed gate (constructed
with any keys), the stored outputValue afterwards is zero. -/
theorem c4_hiz_retains_value (g : TristateGate) (x : Nat) :
    ((g.setKeys false false).tristateLogic x).1 = OutputState.HI_Z ∧
    ((g.setKeys false false).tristateLogic x).2.outputValue = g.outputValue ∧
    (∀ y, ((((g.tristateLogic y).2).setKeys false false).tristateLogic x).2.outputValue
      = (g.tristateLogic y).2.outputValue) ∧
    (∀ b i : Bool,
      (((TristateGate.new b i).setKeys false false).tristateLogic x).2.outputValue = 0) ∧
    ((TristateGate.new false false).tristateLogic x).1 = OutputState.HI_Z ∧
    ((TristateGate.new false false).tristateLogic x).2.outputValue = 0 := by
  simp [TristateGate.tristateLogic, TristateGate.setKeys, TristateGate.new]

/-- C5: for every pair of constructor arguments (bufferKey, inverterKey) the
constructed gate stores exactly those keys, has outputState UNK and
outputValue zero; with no arguments both keys are true, so the first
tristateLogic(x) on a default-constructed gate returns UNK for every x. -/
theorem c5_constructor_initial_state (b i : Bool) (x : Nat) :
    (TristateGate.new b i).bufferKey = b ∧
    (TristateGate.new b i).inverterKey = i ∧
    (TristateGate.new b i).outputState = OutputState.UNK ∧
    (TristateGate.new b i).outputValue = 0 ∧
    (TristateGate.new : TristateGate) = TristateGate.new true true ∧
    (TristateGate.new : TristateGate).bufferKey = true ∧
    (TristateGate.new : TristateGate).inverterKey = true ∧
    ((TristateGate.new : TristateGate).tristateLogic x).1 = OutputState.UNK := by
  simp [TristateGate.tristateLogic, TristateGate.new]

/-- C6: for every gate state g and every pair of booleans (b, i),
setKeys(b, i) sets bufferKey to b and inverterKey to i regardless of their
previous values, and leaves the stored outputState and outputValue
unchanged. -/
theorem c6_setKeys_overwrites_keys_only (g : TristateGate) (b i : Bool) :
    (g.setKeys b i).bufferKey = b ∧
    (g.setKeys b i).inverterKey = i ∧
    (g.setKeys b i).outputState = g.outputState ∧
    (g.setKeys b i).outputValue = g.outputValue ∧
    g.setKeys b i = TristateGate.mk b i g.outputState g.outputValue :=
  ⟨rfl, rfl, rfl, rfl, rfl⟩

/-- C7: the state returned by tristateLogic is a function of the two current
keys only: for two gate states with the same bufferKey and inverterKey
(stored outputState and outputValue arbitrary) and any two inputs x and y,
tristateLogic returns the same OutputState in both runs, and in each run the
stored outputState field afterwards equals the returned state. -/
theorem c7_state_depends_on_keys_only (g₁ g₂ : TristateGate) (x y : Nat)
    (hb : g₁.bufferKey = g₂.bufferKey) (hi : g₁.inverterKey = g₂.inverterKey) :
    (g₁.tristateLogic x).1 = (g₂.tristateLogic y).1 ∧
    (g₁.tristateLogic x).2.outputState = (g₁.tristateLogic x).1 ∧
    (g₂.tristateLogic y).2.outputState = (g₂.tristateLogic y).1 := by
  refine ⟨?_, rfl, rfl⟩
  unfold TristateGate.tristateLogic
  rw [hb, hi]
  cases g₂.bufferKey <;> cases g₂.inverterKey <;> rfl

/-- Witness of C7: two gates with keys (false,true) and different stored
state and value, evaluated on different inputs. -/
theorem c7_state_depends_on_keys_only_witness :
    (TristateGate.mk false true OutputState.BUFFER 7).bufferKey
      = (TristateGate.mk false true OutputState.HI_Z 200).bufferKey ∧
    (TristateGate.mk false true OutputState.BUFFER 7).inverterKey
      = (TristateGate.mk false true OutputState.HI_Z 200).inverterKey ∧
    ((TristateGate.mk false true OutputState.BUFFER 7).tristateLogic 1).1
      = ((TristateGate.mk false true OutputState.HI_Z 200).tristateLogic 255).1 :=
  ⟨rfl, rfl,
   (c7_state_depends_on_keys_only
      (TristateGate.mk false true OutputState.BUFFER 7)
      (TristateGate.mk false true OutputState.HI_Z 200) 1 255 rfl rfl).1⟩

/-- C8: idempotence of evaluation: for every prior gate state g, every key
pair (b, i) and every input x, calling tristateLogic(x) twice in a row without
changing keys returns the same OutputState both times and leaves the same
stored outputValue after the second call as after the first; the whole gate
state after two calls equals the gate state after one. -/
theorem c8_evaluation_idempotent (g : TristateGate) (b i : Bool) (x : Nat) :
    ((((g.setKeys b i).tristateLogic x).2).tristateLogic x).1
      = ((g.setKeys b i).tristateLogic x).1 ∧
    ((((g.setKeys b i).tristateLogic x).2).tristateLogic x).2.outputValue
      = ((g.setKeys b i).tristateLogic x).2.outputValue ∧
    ((((g.setKeys b i).tristateLogic x).2).tristateLogic x).2
      = ((g.setKeys b i).tristateLogic x).2 ∧
    ((g.tristateLogic x).2).tristateLogic x = g.tristateLogic x := by
  refine ⟨?_, ?_, ?_, ?_⟩
  · cases b <;> cases i <;> rfl
  · cases b <;> cases i <;> rfl
  · cases b <;> cases i <;> rfl
  · unfold TristateGate.tristateLogic
    cases g.bufferKey <;> cases g.inverterKey <;> rfl

/-- C9: the worked example as a sequence on one gate, from any starting
state g: with input 0b00101101, evaluating in order with keys (true,false),
(false,true), (true,true), (false,false), setKeys before each tristateLogic
call, yields BUFFER with output 0b00101101, INVERTER with output 0b11010010,
UNK with output 0b00000000, and HI_Z with retained output 0b00000000. -/
theorem c9_worked_example_sequence (g : TristateGate) :
    let r₁ := (g.setKeys true false).tristateLogic 0b00101101
    let r₂ := (r₁.2.setKeys false true).tristateLogic 0b00101101
    let r₃ := (r₂.2.setKeys true true).tristateLogic 0b00101101
    let r₄ := (r₃.2.setKeys false false).tristateLogic 0b00101101
    (r₁.1 = OutputState.BUFFER ∧ r₁.2.outputValue = 0b00101101) ∧
    (r₂.1 = OutputState.INVERTER ∧ r₂.2.outputValue = 0b11010010) ∧
    (r₃.1 = OutputState.UNK ∧ r₃.2.outputValue = 0b00000000) ∧
    (r₄.1 = OutputState.HI_Z ∧ r₄.2.outputValue = 0b00000000) := by
  refine ⟨⟨rfl, rfl⟩, ⟨rfl, rfl⟩, ⟨rfl, rfl⟩, ⟨rfl, rfl⟩⟩

/-- C10: priority rule 1 dominates: constructing a gate with both keys true
(explicitly or by default) and then calling setKeys(true,true) again,
tristateLogic(x) returns UNK, not BUFFER, INVERTER or HI_Z, for every x. -/
theorem c10_both_keys_priority (x : Nat) :
    (((TristateGate.new true true).setKeys true true).tristateLogic x).1
      = OutputState.UNK ∧
    (((TristateGate.new : TristateGate).setKeys true true).tristateLogic x).1
      = OutputState.UNK ∧
    (((TristateGate.new true true).setKeys true true).tristateLogic x).1
      ≠ OutputState.BUFFER ∧
    (((TristateGate.new true true).setKeys true true).tristateLogic x).1
      ≠ OutputState.INVERTER ∧
    (((TristateGate.new true true).setKeys true true).tristateLogic x).1
      ≠ OutputState.HI_Z := by
  refine ⟨rfl, rfl, ?_, ?_, ?_⟩ <;> simp [TristateGate.tristateLogic, TristateGate.setKeys]

/-! ## Evaluation: frame, totality, decision table -/

/-- Evaluation leaves both keys as they were. -/
theorem tristateLogic_keys (g : TristateGate) (x : Nat) :
    (g.tristateLogic x).2.bufferKey = g.bufferKey ∧
    (g.tristateLogic x).2.inverterKey = g.inverterKey := by
  unfold TristateGate.tristateLogic
  cases g.bufferKey <;> cases g.inverterKey <;> exact ⟨rfl, rfl⟩

/-- Gates with equal keys resolve to the same state, whatever the inputs. -/
theorem tristateLogic_fst_congr (g h : TristateGate) (x y : Nat)
    (hb : g.bufferKey = h.bufferKey) (hi : g.inverterKey = h.inverterKey) :
    (g.tristateLogic x).1 = (h.tristateLogic y).1 := by
  unfold TristateGate.tristateLogic
  rw [hb, hi]
  cases h.bufferKey <;> cases h.inverterKey <;> rfl

theorem bitsetFlip_bitsetFlip (x : Nat) (hx : x < 2 ^ BITS) :
    bitsetFlip (bitsetFlip x) = x := by
  have h256 : 2 ^ BITS = 256 := rfl
  rw [bitsetFlip_eq_sub (bitsetFlip x) (bitsetFlip_lt x), bitsetFlip_eq_sub x hx]
  omega

/-- C11: printState performs no state mutation beyond what tristateLogic
performs: for every gate state g and every input x, the gate state
(bufferKey, inverterKey, outputState, outputValue) after printState(x) equals
the gate state after tristateLogic(x) on the same starting state. -/
theorem c11_printState_state_is_tristateLogic_state (g : TristateGate) (x : Nat) :
    (g.printState x).2 = (g.tristateLogic x).2 ∧
    (g.printState x).2.bufferKey = (g.tristateLogic x).2.bufferKey ∧
    (g.printState x).2.inverterKey = (g.tristateLogic x).2.inverterKey ∧
    (g.printState x).2.outputState = (g.tristateLogic x).2.outputState ∧
    (g.printState x).2.outputValue = (g.tristateLogic x).2.outputValue :=
  ⟨rfl, rfl, rfl, rfl, rfl⟩

/-- C13: tristateLogic is total and has no failure path: for every
combination (b, i) of the two keys, every 8-bit input x and every prior
(well-formed) gate state g, it returns a state and a new gate state; the
returned state is one of BUFFER, INVERTER, HI_Z, UNK, the stored outputValue
is a defined BITS-bit value, and for keys (true,true) the result is the
ordinary value UNK. -/
theorem c13_tristateLogic_total (g : TristateGate) (b i : Bool) (x : Nat)
    (hg : g.WellFormed) (hx : x < 2 ^ BITS) :
    (∃ s g', (g.setKeys b i).tristateLogic x = (s, g') ∧
      (s = OutputState.BUFFER ∨ s = OutputState.INVERTER ∨
        s = OutputState.HI_Z ∨ s = OutputState.UNK) ∧
      g'.outputValue < 2 ^ BITS) ∧
    ((g.setKeys true true).tristateLogic x).1 = OutputState.UNK := by
  refine ⟨⟨((g.setKeys b i).tristateLogic x).1, ((g.setKeys b i).tristateLogic x).2,
    rfl, ?_, ?_⟩, rfl⟩
  · cases b <;> cases i <;> simp [TristateGate.tristateLogic, TristateGate.setKeys]
  · have hg' : g.outputValue < 2 ^ BITS := hg
    cases b <;> cases i <;>
      simp [TristateGate.tristateLogic, TristateGate.setKeys, bitsetReset,
        bitsetFlip_lt, hg', hx]

/-- Witness of C13: a gate holding INVERTER and 210, keys set to (false,false),
input 45. -/
theorem c13_tristateLogic_total_witness :
    (TristateGate.mk false true OutputState.INVERTER 210).WellFormed ∧
    (45 : Nat) < 2 ^ BITS ∧
    ∃ s g', ((TristateGate.mk false true OutputState.INVERTER 210).setKeys
        false false).tristateLogic 45 = (s, g') ∧
      (s = OutputState.BUFFER ∨ s = OutputState.INVERTER ∨
        s = OutputState.HI_Z ∨ s = OutputState.UNK) ∧
      g'.outputValue < 2 ^ BITS :=
  ⟨by unfold TristateGate.WellFormed; decide, by decide,
   (c13_tristateLogic_total (TristateGate.mk false true OutputState.INVERTER 210)
      false false 45 (by unfold TristateGate.WellFormed; decide) (by decide)).1⟩

/-- C14: the nested if / else-if chain of tristateLogic equals, for every
gate state g and every 8-bit input x, the single exhaustive four-row match on
the pair (bufferKey, inverterKey): (true,true) gives (UNK, 0), (true,false)
gives (BUFFER, x), (false,true) gives (INVERTER, complement of x),
(false,false) gives (HI_Z, previous outputValue); the keys are left alone. -/
theorem c14_if_chain_equals_table (g : TristateGate) (x : Nat) (hx : x < 2 ^ BITS) :
    ((g.tristateLogic x).1, (g.tristateLogic x).2.outputValue)
      = evaluateTable g.bufferKey g.inverterKey g.outputValue x ∧
    (g.tristateLogic x).2
      = { bufferKey := g.bufferKey
          inverterKey := g.inverterKey
          outputState := (evaluateTable g.bufferKey g.inverterKey g.outputValue x).1
          outputValue := (evaluateTable g.bufferKey g.inverterKey g.outputValue x).2 } := by
  have hflip : bitsetFlip x = x ^^^ (2 ^ BITS - 1) := bitsetFlip_eq_xor x hx
  unfold TristateGate.tristateLogic
  cases g.bufferKey <;> cases g.inverterKey <;>
    simp [evaluateTable, bitsetReset, hflip]

/-- Witness of C14: keys (false,true), input 0b00101101. -/
theorem c14_if_chain_equals_table_witness :
    (0b00101101 : Nat) < 2 ^ BITS ∧
    (((TristateGate.mk false true OutputState.UNK 0).tristateLogic 0b00101101).1,
      ((TristateGate.mk false true OutputState.UNK 0).tristateLogic 0b00101101).2.outputValue)
      = evaluateTable false true 0 0b00101101 :=
  ⟨by decide,
   (c14_if_chain_equals_table (TristateGate.mk false true OutputState.UNK 0)
      0b00101101 (by decide)).1⟩

/-- C17: the returned state identifies the key pair: for every prior state g
and input x the map from (bufferKey, inverterKey) to the OutputState returned
by tristateLogic is a bijection between the four boolean pairs and
BUFFER, INVERTER, HI_Z, UNK, and two gates whose evaluations return the same
state have identical keys. -/
theorem c17_state_identifies_keys :
    (∀ (g : TristateGate) (x : Nat), Function.Bijective
      (fun k : Bool × Bool => ((g.setKeys k.1 k.2).tristateLogic x).1)) ∧
    (∀ (g₁ g₂ : TristateGate) (x y : Nat),
      (g₁.tristateLogic x).1 = (g₂.tristateLogic y).1 →
        g₁.bufferKey = g₂.bufferKey ∧ g₁.inverterKey = g₂.inverterKey) := by
  constructor
  · intro g x
    constructor
    · rintro ⟨b₁, i₁⟩ ⟨b₂, i₂⟩ h
      cases b₁ <;> cases i₁ <;> cases b₂ <;> cases i₂ <;>
        first
          | rfl
          | (simp [TristateGate.tristateLogic, TristateGate.setKeys] at h)
    · intro s
      cases s
      · exact ⟨(true, false), rfl⟩
      · exact ⟨(false, true), rfl⟩
      · exact ⟨(false, false), rfl⟩
      · exact ⟨(true, true), rfl⟩
  · intro g₁ g₂ x y h
    unfold TristateGate.tristateLogic at h
    cases h₁ : g₁.bufferKey <;> cases h₂ : g₁.inverterKey <;>
      cases h₃ : g₂.bufferKey <;> cases h₄ : g₂.inverterKey <;>
        simp [h₁, h₂, h₃, h₄] at h ⊢

/-- Witness of C17: two gates that both return INVERTER have the same keys. -/
theorem c17_state_identifies_keys_witness :
    ((TristateGate.mk false true OutputState.UNK 0).tristateLogic 3).1
      = ((TristateGate.mk false true OutputState.BUFFER 9).tristateLogic 200).1 ∧
    (TristateGate.mk false true OutputState.UNK 0).bufferKey
      = (TristateGate.mk false true OutputState.BUFFER 9).bufferKey ∧
    (TristateGate.mk false true OutputState.UNK 0).inverterKey
      = (TristateGate.mk false true OutputState.BUFFER 9).inverterKey :=
  ⟨rfl,
   c17_state_identifies_keys.2 (TristateGate.mk false true OutputState.UNK 0)
     (TristateGate.mk false true OutputState.BUFFER 9) 3 200 rfl⟩

/-- C18: inverter mode is an involution on 8-bit values: for every 8-bit
input x, with keys (false,true), evaluating x and then evaluating the
resulting outputValue leaves outputValue equal to x; and the inverter-mode
output of x differs from the buffer-mode output of x in every one of the 8
bit positions, so the two are never equal. -/
theorem c18_inverter_involution (g h : TristateGate) (x : Nat) (hx : x < 2 ^ BITS) :
    ((((g.setKeys false true).tristateLogic x).2).tristateLogic
        ((g.setKeys false true).tristateLogic x).2.outputValue).2.outputValue = x ∧
    (∀ i, i < 8 →
      ((g.setKeys false true).tristateLogic x).2.outputValue.testBit i
        ≠ ((h.setKeys true false).tristateLogic x).2.outputValue.testBit i) ∧
    ((g.setKeys false true).tristateLogic x).2.outputValue
      ≠ ((h.setKeys true false).tristateLogic x).2.outputValue := by
  have hinv : ((g.setKeys false true).tristateLogic x).2.outputValue = bitsetFlip x := by
    simp [TristateGate.tristateLogic, TristateGate.setKeys]
  have hbuf : ((h.setKeys true false).tristateLogic x).2.outputValue = x := by
    simp [TristateGate.tristateLogic, TristateGate.setKeys]
  have hbits : ∀ i, i < 8 → (bitsetFlip x).testBit i ≠ x.testBit i := by
    intro i hi
    rw [bitsetFlip_testBit x i hi]
    cases x.testBit i <;> decide
  refine ⟨?_, ?_, ?_⟩
  · have h2 : ((((g.setKeys false true).tristateLogic x).2).tristateLogic
        ((g.setKeys false true).tristateLogic x).2.outputValue).2.outputValue
        = bitsetFlip (bitsetFlip x) := by
      simp [TristateGate.tristateLogic, TristateGate.setKeys]
    rw [h2]
    exact bitsetFlip_bitsetFlip x hx
  · intro i hi
    rw [hinv, hbuf]
    exact hbits i hi
  · rw [hinv, hbuf]
    intro heq
    exact hbits 0 (by decide) (by rw [heq])

/-- Witness of C18 at the input 0b00101101. -/
theorem c18_inverter_involution_witness :
    (0b00101101 : Nat) < 2 ^ BITS ∧
    (((((TristateGate.new).setKeys false true).tristateLogic 0b00101101).2).tristateLogic
        (((TristateGate.new).setKeys false true).tristateLogic 0b00101101).2.outputValue
      ).2.outputValue = 0b00101101 :=
  ⟨by decide,
   (c18_inverter_involution TristateGate.new TristateGate.new 0b00101101 (by decide)).1⟩

/-- C19: tristateLogic never changes the keys: for every gate state g and
every input x, bufferKey and inverterKey after tristateLogic(x) equal their
values before the call, so any number of consecutive evaluations without
setKeys, on any inputs, all return the same state. -/
theorem c19_tristateLogic_keeps_keys (g : TristateGate) (x : Nat) (inputs : List Nat) :
    (g.tristateLogic x).2.bufferKey = g.bufferKey ∧
    (g.tristateLogic x).2.inverterKey = g.inverterKey ∧
    evaluations g inputs = List.replicate inputs.length (g.tristateLogic x).1 := by
  refine ⟨(tristateLogic_keys g x).1, (tristateLogic_keys g x).2, ?_⟩
  induction inputs generalizing g with
  | nil => rfl
  | cons y ys ih =>
    have hk := tristateLogic_keys g y
    simp only [evaluations, List.length_cons, List.replicate_succ]
    rw [ih (g.tristateLogic y).2,
      tristateLogic_fst_congr (g.tristateLogic y).2 g x x hk.1 hk.2,
      tristateLogic_fst_congr g g y x rfl rfl]

/-! ## The text written by printState -/

/-- A text occurs in every text that is built around it. -/
theorem occursIn_of_eq (before needle after text : String)
    (h : text = before ++ needle ++ after) : occursIn needle text := by
  refine ⟨before.data, after.data, ?_⟩
  rw [h]
  simp [String.data_append]

/-- A needle with a character that the text lacks does not occur in it. -/
theorem not_occursIn_of_not_mem (c : Char) (needle text : String)
    (hc : c ∈ needle.data) (hn : c ∉ text.data) : ¬ occursIn needle text :=
  fun h => hn (h.subset hc)

theorem bitsetToString_data (x : Nat) :
    (bitsetToString x).data =
      (List.range BITS).reverse.map (fun i => if x.testBit i then '1' else '0') :=
  rfl

theorem bitsetToString_length (x : Nat) : (bitsetToString x).length = 8 := by
  show (bitsetToString x).data.length = 8
  rw [bitsetToString_data]
  simp [BITS]

theorem mem_bitsetToString (x : Nat) (c : Char) (h : c ∈ (bitsetToString x).data) :
    c = '0' ∨ c = '1' := by
  rw [bitsetToString_data] at h
  obtain ⟨i, _, hi⟩ := List.mem_map.mp h
  split at hi
  · exact Or.inr hi.symm
  · exact Or.inl hi.symm

theorem bitsetToString_binary (x : Nat) :
    (bitsetToString x).data.all (fun c => c == '0' || c == '1') = true := by
  rw [List.all_eq_true]
  intro c hc
  rcases mem_bitsetToString x c hc with h | h <;> subst h <;> decide

theorem not_mem_bitsetToString (x : Nat) (c : Char) (h0 : c ≠ '0') (h1 : c ≠ '1') :
    c ∉ (bitsetToString x).data := by
  intro h
  rcases mem_bitsetToString x c h with h | h
  · exact h0 h
  · exact h1 h

/-- The characters written for a bitset, spelled out: bit 7 first, bit 0 last. -/
theorem bitsetToString_chars (v : Nat) :
    (bitsetToString v).data =
      [if v.testBit 7 then '1' else '0', if v.testBit 6 then '1' else '0',
       if v.testBit 5 then '1' else '0', if v.testBit 4 then '1' else '0',
       if v.testBit 3 then '1' else '0', if v.testBit 2 then '1' else '0',
       if v.testBit 1 then '1' else '0', if v.testBit 0 then '1' else '0'] :=
  rfl

/-- The text of a bitset depends on the low BITS bits of the number only. -/
theorem bitsetToString_mod (v : Nat) : bitsetToString (v % 2 ^ 8) = bitsetToString v := by
  have hbit : ∀ i, i < 8 → (v % 2 ^ 8).testBit i = v.testBit i := by
    intro i hi
    rw [Nat.testBit_mod_two_pow]
    simp [hi]
  have hdata : (bitsetToString (v % 2 ^ 8)).data = (bitsetToString v).data := by
    rw [bitsetToString_chars, bitsetToString_chars, hbit 7 (by decide), hbit 6 (by decide),
      hbit 5 (by decide), hbit 4 (by decide), hbit 3 (by decide), hbit 2 (by decide),
      hbit 1 (by decide), hbit 0 (by decide)]
  exact String.ext hdata

/-- Reading the written characters back as a binary numeral gives the value
of the bitset. -/
theorem bitsetToString_value (v : Nat) :
    (bitsetToString v).data.foldl (fun acc c => 2 * acc + (if c = '1' then 1 else 0)) 0
      = v % 2 ^ 8 := by
  have hlt : v % 2 ^ 8 < 256 := Nat.mod_lt _ (by decide)
  rw [← bitsetToString_mod v]
  generalize v % 2 ^ 8 = w at hlt ⊢
  interval_cases w <;> rfl

/-- The text of printState in buffer and inverter mode has no parenthesis. -/
theorem paren_not_mem_printState (g : TristateGate) (x : Nat)
    (h : g.bufferKey ≠ g.inverterKey) : '(' ∉ (g.printState x).1.data := by
  obtain ⟨b, i, st, v⟩ := g
  have hbits : ∀ y, '(' ∉ (bitsetToString y).data :=
    fun y => not_mem_bitsetToString y _ (by decide) (by decide)
  cases b <;> cases i <;>
    first
      | exact absurd rfl h
      | simp [TristateGate.printState, TristateGate.tristateLogic, String.data_append,
          boolToString, hbits]

/-- The text of printState in the unknown mode has no capital R. -/
theorem capital_R_not_mem_printState (g : TristateGate) (x : Nat)
    (hb : g.bufferKey = true) (hi : g.inverterKey = true) :
    'R' ∉ (g.printState x).1.data := by
  obtain ⟨b, i, st, v⟩ := g
  have hbits : ∀ y, 'R' ∉ (bitsetToString y).data :=
    fun y => not_mem_bitsetToString y _ (by decide) (by decide)
  simp only at hb hi
  subst hb hi
  simp [TristateGate.printState, TristateGate.tristateLogic, String.data_append,
    boolToString, hbits]

/-- C12: for every gate state g and input x, the text produced by
printState(x) contains the input as an 8-character binary string, both key
values (1 for true, 0 for false), the name of the state that tristateLogic(x)
resolves to (BUFFER, INVERTER, HI-Z or UNK), and the stored outputValue after
evaluation as an 8-character binary string; the value is labelled as retained,
by the text Actual Output (Retained), if and only if the resolved state is
HI_Z. The binary string of a value v is pinned: its 8 characters are the bits
7 down to 0 of v, and read back as a binary numeral it is v (mod 2 ^ 8). -/
theorem c12_printState_text (g : TristateGate) (x : Nat) :
    (∀ v : Nat,
      (bitsetToString v).data =
        [if v.testBit 7 then '1' else '0', if v.testBit 6 then '1' else '0',
         if v.testBit 5 then '1' else '0', if v.testBit 4 then '1' else '0',
         if v.testBit 3 then '1' else '0', if v.testBit 2 then '1' else '0',
         if v.testBit 1 then '1' else '0', if v.testBit 0 then '1' else '0'] ∧
      (bitsetToString v).length = 8 ∧
      (bitsetToString v).data.foldl (fun acc c => 2 * acc + (if c = '1' then 1 else 0)) 0
        = v % 2 ^ 8) ∧
    occursIn ("Input: " ++ bitsetToString x) (g.printState x).1 ∧
    occursIn ("Buffer Key: " ++ (if g.bufferKey = true then "1" else "0"))
      (g.printState x).1 ∧
    occursIn ("Inverter Key: " ++ (if g.inverterKey = true then "1" else "0"))
      (g.printState x).1 ∧
    occursIn
      ("Actual State: " ++
        (match (g.tristateLogic x).1 with
          | OutputState.BUFFER => "BUFFER"
          | OutputState.INVERTER => "INVERTER"
          | OutputState.HI_Z => "HI-Z"
          | OutputState.UNK => "UNK"))
      (g.printState x).1 ∧
    occursIn
      ((if (g.tristateLogic x).1 = OutputState.HI_Z
          then "Actual Output (Retained): " else "Actual Output: ")
        ++ bitsetToString (g.tristateLogic x).2.outputValue)
      (g.printState x).1 ∧
    (occursIn "Actual Output (Retained)" (g.printState x).1
      ↔ (g.tristateLogic x).1 = OutputState.HI_Z) := by
  refine ⟨fun v => ⟨bitsetToString_chars v, bitsetToString_length v,
    bitsetToString_value v⟩, ?_⟩
  obtain ⟨b, i, st, v⟩ := g
  cases b <;> cases i
  · refine ⟨?_, ?_, ?_, ?_, ?_, ?_⟩
    · exact occursIn_of_eq "" _
        ("\nBuffer Key: 0\tInverter Key: 0\nActual State: HI-Z\nActual Output (Retained): "
          ++ bitsetToString v ++ "\n") _ rfl
    · exact occursIn_of_eq ("Input: " ++ bitsetToString x ++ "\n") _
        ("\tInverter Key: 0\nActual State: HI-Z\nActual Output (Retained): "
          ++ bitsetToString v ++ "\n") _ rfl
    · exact occursIn_of_eq ("Input: " ++ bitsetToString x ++ "\nBuffer Key: 0\t") _
        ("\nActual State: HI-Z\nActual Output (Retained): " ++ bitsetToString v ++ "\n") _ rfl
    · exact occursIn_of_eq ("Input: " ++ bitsetToString x ++ "\nBuffer Key: 0\tInverter Key: 0\n") _
        ("\nActual Output (Retained): " ++ bitsetToString v ++ "\n") _ rfl
    · exact occursIn_of_eq
        ("Input: " ++ bitsetToString x
          ++ "\nBuffer Key: 0\tInverter Key: 0\nActual State: HI-Z\n") _
        "\n" _ rfl
    · exact ⟨fun _ => rfl, fun _ => occursIn_of_eq
        ("Input: " ++ bitsetToString x
          ++ "\nBuffer Key: 0\tInverter Key: 0\nActual State: HI-Z\n") _
        (": " ++ bitsetToString v ++ "\n") _ rfl⟩
  · refine ⟨?_, ?_, ?_, ?_, ?_, ?_⟩
    · exact occursIn_of_eq "" _
        ("\nBuffer Key: 0\tInverter Key: 1\nActual State: INVERTER\nActual Output: "
          ++ bitsetToString (bitsetFlip x) ++ "\n") _ rfl
    · exact occursIn_of_eq ("Input: " ++ bitsetToString x ++ "\n") _
        ("\tInverter Key: 1\nActual State: INVERTER\nActual Output: "
          ++ bitsetToString (bitsetFlip x) ++ "\n") _ rfl
    · exact occursIn_of_eq ("Input: " ++ bitsetToString x ++ "\nBuffer Key: 0\t") _
        ("\nActual State: INVERTER\nActual Output: " ++ bitsetToString (bitsetFlip x) ++ "\n") _ rfl
    · exact occursIn_of_eq ("Input: " ++ bitsetToString x ++ "\nBuffer Key: 0\tInverter Key: 1\n") _
        ("\nActual Output: " ++ bitsetToString (bitsetFlip x) ++ "\n") _ rfl
    · exact occursIn_of_eq
        ("Input: " ++ bitsetToString x
          ++ "\nBuffer Key: 0\tInverter Key: 1\nActual State: INVERTER\n") _
        "\n" _ rfl
    · refine ⟨fun h => absurd h ?_, fun h => absurd h (by simp [TristateGate.tristateLogic])⟩
      exact not_occursIn_of_not_mem '(' _ _ (by decide)
        (paren_not_mem_printState _ x (by simp))
  · refine ⟨?_, ?_, ?_, ?_, ?_, ?_⟩
    · exact occursIn_of_eq "" _
        ("\nBuffer Key: 1\tInverter Key: 0\nActual State: BUFFER\nActual Output: "
          ++ bitsetToString x ++ "\n") _ rfl
    · exact occursIn_of_eq ("Input: " ++ bitsetToString x ++ "\n") _
        ("\tInverter Key: 0\nActual State: BUFFER\nActual Output: "
          ++ bitsetToString x ++ "\n") _ rfl
    · exact occursIn_of_eq ("Input: " ++ bitsetToString x ++ "\nBuffer Key: 1\t") _
        ("\nActual State: BUFFER\nActual Output: " ++ bitsetToString x ++ "\n") _ rfl
    · exact occursIn_of_eq ("Input: " ++ bitsetToString x ++ "\nBuffer Key: 1\tInverter Key: 0\n") _
        ("\nActual Output: " ++ bitsetToString x ++ "\n") _ rfl
    · exact occursIn_of_eq
        ("Input: " ++ bitsetToString x
          ++ "\nBuffer Key: 1\tInverter Key: 0\nActual State: BUFFER\n") _
        "\n" _ rfl
    · refine ⟨fun h => absurd h ?_, fun h => absurd h (by simp [TristateGate.tristateLogic])⟩
      exact not_occursIn_of_not_mem '(' _ _ (by decide)
        (paren_not_mem_printState _ x (by simp))
  · refine ⟨?_, ?_, ?_, ?_, ?_, ?_⟩
    · exact occursIn_of_eq "" _
        ("\nBuffer Key: 1\tInverter Key: 1\nActual State: UNK\tActual Output: "
          ++ bitsetToString 0 ++ " (All bits set to 0 for undefined)\n") _ rfl
    · exact occursIn_of_eq ("Input: " ++ bitsetToString x ++ "\n") _
        ("\tInverter Key: 1\nActual State: UNK\tActual Output: "
          ++ bitsetToString 0 ++ " (All bits set to 0 for undefined)\n") _ rfl
    · exact occursIn_of_eq ("Input: " ++ bitsetToString x ++ "\nBuffer Key: 1\t") _
        ("\nActual State: UNK\tActual Output: " ++ bitsetToString 0 ++ " (All bits set to 0 for undefined)\n") _ rfl
    · exact occursIn_of_eq ("Input: " ++ bitsetToString x ++ "\nBuffer Key: 1\tInverter Key: 1\n") _
        ("\tActual Output: " ++ bitsetToString 0 ++ " (All bits set to 0 for undefined)\n") _ rfl
    · exact occursIn_of_eq
        ("Input: " ++ bitsetToString x
          ++ "\nBuffer Key: 1\tInverter Key: 1\nActual State: UNK\t") _
        " (All bits set to 0 for undefined)\n" _ rfl
    · refine ⟨fun h => absurd h ?_, fun h => absurd h (by simp [TristateGate.tristateLogic])⟩
      exact not_occursIn_of_not_mem 'R' _ _ (by decide)
        (capital_R_not_mem_printState _ x rfl rfl)

/-! ## The test driver -/

theorem range_combinations : List.range LOGIC_LOCKING_COMBINATIONS = [0, 1, 2, 3] := by
  decide

theorem decodeKeys_zero : decodeKeys 0 = (false, false) := by decide

theorem decodeKeys_one : decodeKeys 1 = (false, true) := by decide

theorem decodeKeys_two : decodeKeys 2 = (true, false) := by decide

theorem decodeKeys_three : decodeKeys 3 = (true, true) := by decide

/-- One round of the inner loop on a gate whose stored value is zero: the four
calls made, and the gate left behind. -/
theorem keyLoop_round (input : Nat) (s : Driver) (h0 : s.tsg.outputValue = 0) :
    (keyLoop input s).tsg = TristateGate.new ∧
    (keyLoop input s).calls = s.calls ++
      [ { bufferKey := false, inverterKey := false, input := input,
          state := OutputState.HI_Z, outputValue := 0,
          report := ((TristateGate.mk false false OutputState.UNK 0).printState input).1 },
        { bufferKey := false, inverterKey := true, input := input,
          state := OutputState.INVERTER, outputValue := bitsetFlip input,
          report := ((TristateGate.mk false true OutputState.UNK 0).printState input).1 },
        { bufferKey := true, inverterKey := false, input := input,
          state := OutputState.BUFFER, outputValue := input,
          report := ((TristateGate.mk true false OutputState.UNK 0).printState input).1 },
        { bufferKey := true, inverterKey := true, input := input,
          state := OutputState.UNK, outputValue := 0,
          report := ((TristateGate.mk true true OutputState.UNK 0).printState input).1 } ] := by
  obtain ⟨⟨b, i, st, v⟩, out, calls⟩ := s
  simp only at h0
  subst h0
  unfold keyLoop
  rw [range_combinations]
  simp [List.foldl, keyLoopBody, decodeKeys_zero, decodeKeys_one, decodeKeys_two,
    decodeKeys_three, TristateGate.printState,
    TristateGate.tristateLogic, TristateGate.setKeys, TristateGate.new, bitsetReset]

/-- The outer loop, started on a gate whose stored value is zero, makes the
four calls of a round for each input in turn. -/
theorem testLoop_calls (inputs : List Nat) (i : Nat) (s : Driver)
    (h0 : s.tsg.outputValue = 0) :
    (testLoop inputs i s).calls = s.calls ++ inputs.flatMap (fun input =>
      [ { bufferKey := false, inverterKey := false, input := input,
          state := OutputState.HI_Z, outputValue := 0,
          report := ((TristateGate.mk false false OutputState.UNK 0).printState input).1 },
        { bufferKey := false, inverterKey := true, input := input,
          state := OutputState.INVERTER, outputValue := bitsetFlip input,
          report := ((TristateGate.mk false true OutputState.UNK 0).printState input).1 },
        { bufferKey := true, inverterKey := false, input := input,
          state := OutputState.BUFFER, outputValue := input,
          report := ((TristateGate.mk true false OutputState.UNK 0).printState input).1 },
        { bufferKey := true, inverterKey := true, input := input,
          state := OutputState.UNK, outputValue := 0,
          report := ((TristateGate.mk true true OutputState.UNK 0).printState input).1 } ]) := by
  induction inputs generalizing i s with
  | nil => simp [testLoop]
  | cons x xs ih =>
    have hr := keyLoop_round x
      { s with out := s.out ++ "Random Input " ++ toString (i + 1) ++ ": "
                  ++ bitsetToString x ++ "\n\n" } h0
    simp only [testLoop]
    rw [ih (i + 1) _ (by rw [hr.1]; rfl), hr.2]
    simp [List.flatMap_cons]

theorem length_flatMap_of_const {α β : Type} (l : List α) (f : α → List β) (k : Nat)
    (h : ∀ a, (f a).length = k) : (l.flatMap f).length = l.length * k := by
  induction l with
  | nil => simp
  | cons a l ih =>
    rw [List.flatMap_cons, List.length_append, ih, h a, List.length_cons, Nat.succ_mul]
    omega

/-- One round of the inner loop on a gate whose stored value is zero: the text
written, one printState text and a newline per call. -/
theorem keyLoop_out (input : Nat) (s : Driver) (h0 : s.tsg.outputValue = 0) :
    (keyLoop input s).out = s.out
        ++ ((TristateGate.mk false false OutputState.UNK 0).printState input).1 ++ "\n"
        ++ ((TristateGate.mk false true OutputState.UNK 0).printState input).1 ++ "\n"
        ++ ((TristateGate.mk true false OutputState.UNK 0).printState input).1 ++ "\n"
        ++ ((TristateGate.mk true true OutputState.UNK 0).printState input).1 ++ "\n" := by
  obtain ⟨⟨b, i, st, v⟩, out, calls⟩ := s
  simp only at h0
  subst h0
  unfold keyLoop
  rw [range_combinations]
  simp [List.foldl, keyLoopBody, decodeKeys_zero, decodeKeys_one, decodeKeys_two,
    decodeKeys_three, TristateGate.printState,
    TristateGate.tristateLogic, TristateGate.setKeys, bitsetReset]

/-- The outer loop leaves the gate as the default-constructed one when it
starts from it. -/
theorem testLoop_tsg (inputs : List Nat) (i : Nat) (s : Driver)
    (h : s.tsg = TristateGate.new) : (testLoop inputs i s).tsg = TristateGate.new := by
  induction inputs generalizing i s with
  | nil => exact h
  | cons x xs ih =>
    simp only [testLoop]
    exact ih (i + 1) _ (keyLoop_round x _ (by rw [h]; rfl)).1

/-- The text written by the outer loop run on the inputs f i, f (i + 1), ...:
per input the heading line and the text of the round. -/
theorem testLoop_out (f : Nat → Nat) (n i : Nat) (s : Driver)
    (h0 : s.tsg.outputValue = 0) :
    (testLoop ((List.range' i n).map f) i s).out =
      (List.range' i n).foldl (fun acc k =>
        acc ++ "Random Input " ++ toString (k + 1) ++ ": " ++ bitsetToString (f k) ++ "\n\n"
        ++ ((TristateGate.mk false false OutputState.UNK 0).printState (f k)).1 ++ "\n"
        ++ ((TristateGate.mk false true OutputState.UNK 0).printState (f k)).1 ++ "\n"
        ++ ((TristateGate.mk true false OutputState.UNK 0).printState (f k)).1 ++ "\n"
        ++ ((TristateGate.mk true true OutputState.UNK 0).printState (f k)).1 ++ "\n") s.out := by
  induction n generalizing i s with
  | zero => rfl
  | succ n ih =>
    have hr := keyLoop_round (f i)
      { s with out := s.out ++ "Random Input " ++ toString (i + 1) ++ ": "
                  ++ bitsetToString (f i) ++ "\n\n" } h0
    have ho := keyLoop_out (f i)
      { s with out := s.out ++ "Random Input " ++ toString (i + 1) ++ ": "
                  ++ bitsetToString (f i) ++ "\n\n" } h0
    rw [List.range'_succ, List.map_cons, List.foldl_cons]
    simp only [testLoop]
    rw [ih (i + 1) _ (by rw [hr.1]; rfl), ho]

/-- C15: the driver's key decoding enumerates all four key combinations
exactly once per input: on j in 0..3 the map from j to
(bufferKey, inverterKey) = ((j & 0x2) >> 1, j & 0x1) is a bijection onto the
four boolean pairs, visiting them in the order (false,false), (false,true),
(true,false), (true,true); so for each of the 10 inputs the driver makes
exactly four printState calls, one per key pair in that order, and the run
ends with return value 0. The four calls of a round are chained on the one
gate, which every round finds as the constructor left it: the calls recorded
carry the state, stored value and text that printState produced, the text
written to std::cout is the heading of each input followed by the text of its
four calls, and the gate is left in the state of the last call. -/
theorem c15_driver_enumerates_key_pairs (rand : Nat → Nat) :
    (List.range LOGIC_LOCKING_COMBINATIONS).map decodeKeys
      = [(false, false), (false, true), (true, false), (true, true)] ∧
    Function.Bijective (fun j : Fin LOGIC_LOCKING_COMBINATIONS => decodeKeys j.val) ∧
    (Driver.main rand).2.calls.map (fun c => (c.input, c.bufferKey, c.inverterKey))
      = (List.range RANDOM_TEST_CASES).flatMap (fun i =>
          (List.range LOGIC_LOCKING_COMBINATIONS).map
            (fun j => (bitsetOfNat (rand i), decodeKeys j))) ∧
    (Driver.main rand).2.calls.length = 40 ∧
    (Driver.main rand).1 = 0 ∧
    (Driver.main rand).2.calls
      = (List.range RANDOM_TEST_CASES).flatMap (fun i =>
          let x := bitsetOfNat (rand i)
          let r₀ := ((TristateGate.new).setKeys false false).printState x
          let r₁ := (r₀.2.setKeys false true).printState x
          let r₂ := (r₁.2.setKeys true false).printState x
          let r₃ := (r₂.2.setKeys true true).printState x
          [ Evaluation.mk false false x r₀.2.outputState r₀.2.outputValue r₀.1,
            Evaluation.mk false true x r₁.2.outputState r₁.2.outputValue r₁.1,
            Evaluation.mk true false x r₂.2.outputState r₂.2.outputValue r₂.1,
            Evaluation.mk true true x r₃.2.outputState r₃.2.outputValue r₃.1 ]) ∧
    (Driver.main rand).2.out
      = (List.range RANDOM_TEST_CASES).foldl (fun acc i =>
          let x := bitsetOfNat (rand i)
          let r₀ := ((TristateGate.new).setKeys false false).printState x
          let r₁ := (r₀.2.setKeys false true).printState x
          let r₂ := (r₁.2.setKeys true false).printState x
          let r₃ := (r₂.2.setKeys true true).printState x
          acc ++ "Random Input " ++ toString (i + 1) ++ ": " ++ bitsetToString x ++ "\n\n"
            ++ r₀.1 ++ "\n" ++ r₁.1 ++ "\n" ++ r₂.1 ++ "\n" ++ r₃.1 ++ "\n") "" ∧
    (Driver.main rand).2.tsg = TristateGate.mk true true OutputState.UNK 0 := by
  have hcalls := testLoop_calls
    ((List.range RANDOM_TEST_CASES).map (fun i => bitsetOfNat (rand i))) 0
    { tsg := TristateGate.new, out := "", calls := [] } rfl
  have hout := testLoop_out (fun i => bitsetOfNat (rand i)) RANDOM_TEST_CASES 0
    { tsg := TristateGate.new, out := "", calls := [] } rfl
  rw [← List.range_eq_range'] at hout
  refine ⟨by decide, by decide, ?_, ?_, rfl, ?_, ?_, ?_⟩
  · show (testLoop _ 0 _).calls.map _ = _
    rw [hcalls, range_combinations]
    simp [List.map_flatMap, List.flatMap_map, decodeKeys_zero, decodeKeys_one,
      decodeKeys_two, decodeKeys_three]
  · show (testLoop _ 0 _).calls.length = 40
    rw [hcalls, List.length_append, length_flatMap_of_const _ _ 4]
    · simp [RANDOM_TEST_CASES]
    · intro a
      rfl
  · show (testLoop _ 0 _).calls = _
    rw [hcalls, List.flatMap_map]
    simp [TristateGate.printState, TristateGate.tristateLogic, TristateGate.setKeys,
      TristateGate.new, bitsetReset]
  · show (testLoop _ 0 _).out = _
    rw [hout]
    simp [TristateGate.printState, TristateGate.tristateLogic, TristateGate.setKeys,
      TristateGate.new, bitsetReset]
  · exact testLoop_tsg _ 0 _ rfl

/-- C16: in the driver's evaluation sequence (one gate, constructed by
default, reused across all inputs, keys applied in the order (false,false),
(false,true), (true,false), (true,true) for each input), for every list of
inputs the states resolved are HI_Z, INVERTER, BUFFER, UNK round after round,
and the outputValue retained and reported by every HI_Z evaluation is
all-zero: the first one retains the constructor's zero and each later one
follows the UNK evaluation that ended the previous round. The same holds for
the ten inputs that main draws. -/
theorem c16_driver_hiz_retains_zero (inputs : List Nat) (rand : Nat → Nat)
    (c : Evaluation) (hstate : c.state = OutputState.HI_Z)
    (hc : c ∈ (testLoop inputs 0 { tsg := TristateGate.new, out := "", calls := [] }).calls
      ∨ c ∈ (Driver.main rand).2.calls) :
    (c.outputValue = 0 ∧ occursIn "Actual Output (Retained): 00000000\n" c.report) ∧
    (testLoop inputs 0 { tsg := TristateGate.new, out := "", calls := [] }).calls.map
        (fun e => e.state)
      = inputs.flatMap (fun _ =>
          [OutputState.HI_Z, OutputState.INVERTER, OutputState.BUFFER, OutputState.UNK]) := by
  have key : ∀ l : List Nat,
      c ∈ (testLoop l 0 { tsg := TristateGate.new, out := "", calls := [] }).calls →
      c.outputValue = 0 ∧ occursIn "Actual Output (Retained): 00000000\n" c.report := by
    intro l hl
    rw [testLoop_calls l 0 _ rfl] at hl
    simp only [List.nil_append, List.mem_flatMap] at hl
    obtain ⟨x, _, hx⟩ := hl
    simp only [List.mem_cons, List.mem_singleton, List.not_mem_nil, or_false] at hx
    rcases hx with h | h | h | h
    · subst h
      have hzero : "Actual Output (Retained): " ++ bitsetToString 0 ++ "\n"
          = "Actual Output (Retained): 00000000\n" := by decide
      rw [← hzero]
      exact ⟨rfl, occursIn_of_eq
        ("Input: " ++ bitsetToString x
          ++ "\nBuffer Key: 0\tInverter Key: 0\nActual State: HI-Z\n") _ "" _ rfl⟩
    · subst h
      simp at hstate
    · subst h
      simp at hstate
    · subst h
      simp at hstate
  constructor
  · rcases hc with hc | hc
    · exact key inputs hc
    · exact key _ hc
  · rw [testLoop_calls inputs 0 _ rfl]
    simp [List.map_flatMap]

/-- Witness of C16: the driver loop on the single input 0b00101101; its first
call is the HI_Z evaluation that retains the constructor's zero. -/
theorem c16_driver_hiz_retains_zero_witness :
    (Evaluation.mk false false 0b00101101 OutputState.HI_Z 0
        "Input: 00101101\nBuffer Key: 0\tInverter Key: 0\nActual State: HI-Z\nActual Output (Retained): 00000000\n").state
      = OutputState.HI_Z ∧
    Evaluation.mk false false 0b00101101 OutputState.HI_Z 0
        "Input: 00101101\nBuffer Key: 0\tInverter Key: 0\nActual State: HI-Z\nActual Output (Retained): 00000000\n"
      ∈ (testLoop [0b00101101] 0 { tsg := TristateGate.new, out := "", calls := [] }).calls ∧
    (Evaluation.mk false false 0b00101101 OutputState.HI_Z 0
        "Input: 00101101\nBuffer Key: 0\tInverter Key: 0\nActual State: HI-Z\nActual Output (Retained): 00000000\n").outputValue
      = 0 :=
  ⟨rfl, by decide,
   (c16_driver_hiz_retains_zero [0b00101101] (fun _ => 0) _ rfl (Or.inl (by decide))).1.1⟩
